import Mathlib

/-!
Shallow embedding of `scr/check_netcdf.py` from the repository
`steingod/extractfromfrost`, together with theorems settling the claims
about its specification.

Modelling conventions:
* A NetCDF dataset is modelled by its time dimension, its ordered list of
  variables and its ordered list of global attributes.  Numeric contents
  (data cells, fill values, vertical levels) are modelled as exact
  rationals; the fixed-width storage types (`i2`, `i4`, `f4`) are carried
  as strings, as the code manipulates them.  The one fixed-width effect a
  claim depends on is modelled explicitly: the grid rebuild stages its
  cells through a `dtype='i2'` temporary array (line 187), so every value
  stored through it is truncated toward zero and wrapped into the signed
  16-bit range (`toI16` below).
* Attributes that the code reads unconditionally (`standard_name`,
  `long_name`, `units`, `_FillValue`, `coordinates`,
  `performance_category`) are total fields of a variable.
* The captured per-variable dictionary stores the missing value as
  Python stores it, namely the string `str(fillValue)` (respectively the
  empty string for the `time` variable).  A string produced by `str` of a
  number parses back to the same number, so the round trip is modelled by
  `Option Rat`: `none` stands for the empty string, which `int()` and
  `float()` fail to parse, and `some m` stands for a parsable string.
  `int()` additionally fails on a non-integer literal, hence the
  denominator test in `update_variables`.
* Exceptions are modelled by `Except String`; an `.error` result means
  the Python exception propagated out of the modelled code and the
  on-disk file keeps whatever content it had at that point.
-/

/-- Data payload of a NetCDF variable: one-dimensional (time) or
two-dimensional (time x vertical level). -/
inductive NCData where
  | oneD (xs : List Rat)
  | twoD (m : List (List Rat))
deriving DecidableEq, Repr

/-- A NetCDF variable as `check_netcdf.py` reads it: its name, the
descriptive attributes the script accesses, the numeric type string
(`str(var.dtype)`), the declared `_FillValue`, the dimension names and
the stored data. -/
structure NCVar where
  name : String
  stdname : String
  lngname : String
  units : String
  dtype : String
  fillValue : Rat
  dims : List String
  coords : String
  perfcat : String
  data : NCData
deriving DecidableEq, Repr

/-- A NetCDF dataset: the size of the `time` dimension, the variables in
creation order, and the global attributes in order. -/
structure NCDataset where
  timeDim : Nat
  vars : List NCVar
  gattrs : List (String × String)
deriving DecidableEq, Repr

instance : Inhabited NCDataset := ⟨⟨0, [], []⟩⟩

/-- `list(myncds.variables.keys())` (line 237). -/
def varNames (ds : NCDataset) : List String := ds.vars.map (·.name)

/-- `myncds[el]`: look a variable up by name. -/
def lookupVar (ds : NCDataset) (n : String) : Option NCVar :=
  ds.vars.find? (fun v => v.name == n)

/-- `myncds.getncattr('featureType')` (line 240): a global-attribute
lookup; `none` models the `AttributeError` path. -/
def getFeatureType (ds : NCDataset) : Option String :=
  ds.gattrs.lookup "featureType"

/-- The flat list of values stored in a variable (used for vertical
coordinates, which are one-dimensional in every real input; `numpy`
`.size` is the total element count either way). -/
def ncValues : NCData → List Rat
  | .oneD xs => xs
  | .twoD m => m.flatten

/-- `var.size`: total number of stored elements. -/
def ncSize (d : NCData) : Nat := (ncValues d).length

/-- `arr[i][k]` on a rectangular two-dimensional numpy array (out-of-range
indices never occur on the shapes the code builds). -/
def cellAt (m : List (List Rat)) (i k : Nat) : Rat := (m.getD i []).getD k 0

/-- Wrap an integer into the signed 16-bit range, as numpy does when an
out-of-range value is stored into an `i2` array. -/
def wrapI16 (n : Int) : Int := (n + 32768) % 65536 - 32768

/-- Storing a numeric value into a cell of the `dtype='i2'` temporary
array of line 187: the value is cast C-style, truncating toward zero
(Python `int()` does the same to the prefill before the cast) and
wrapping into `[-32768, 32767]`. -/
def toI16 (q : Rat) : Rat := ((wrapI16 (q.num.tdiv (q.den : Int))) : Rat)

/-- One entry of `myvariables` (lines 266-276): the per-variable
dictionary captured from the first file.  `missing` is
`str(var._FillValue)` for every variable except `time`, whose entry is
the empty string, modelled as `none` (see the conventions above). -/
structure VarDict where
  name : String
  stdname : String
  lngname : String
  units : String
  dtype : String
  missing : Option Rat
deriving DecidableEq, Repr

/-- Lines 265-276: build the dictionary entry for one variable. -/
def mkVarDict (v : NCVar) : VarDict :=
  { name := v.name
    stdname := v.stdname
    lngname := v.lngname
    units := v.units
    dtype := v.dtype
    missing := if v.name = "time" then none else some v.fillValue }

/-- Lines 264-276: capture the reference schema from the first file of a
station (`myvariables`), one entry per variable in declaration order. -/
def capture (ds : NCDataset) : List VarDict := ds.vars.map mkVarDict

/-- Python's string comparison on the underlying character lists:
code-point lexicographic order. -/
def charListLe : List Char → List Char → Bool
  | [], _ => true
  | _ :: _, [] => false
  | a :: as, b :: bs => decide (a < b) || (decide (a = b) && charListLe as bs)

/-- Python's `<=` on strings (the order `sorted` sorts by). -/
def pyLe (a b : String) : Prop := charListLe a.data b.data = true

instance : DecidableRel pyLe := fun a b =>
  inferInstanceAs (Decidable (charListLe a.data b.data = true))

/-- Python's `<` on strings. -/
def pyLt (a b : String) : Prop := pyLe a b ∧ a ≠ b

instance : DecidableRel pyLt := fun a b =>
  inferInstanceAs (Decidable (pyLe a b ∧ a ≠ b))

/-- Python's `str.endswith`: the last characters equal the suffix. -/
def strEndsWith (s suffix : String) : Bool :=
  decide (s.data.drop (s.data.length - suffix.data.length) = suffix.data)

/-- Python's `str.startswith`: the first characters equal the given
string. -/
def strStartsWith (s pre : String) : Bool :=
  decide (s.data.take pre.data.length = pre.data)

/-- Lines 106-115 (`compare_varlists`): sort both name lists and compare
for equality (`sorted` sorts by Python's string order). -/
def compare_varlists (curlist reflist : List String) : Bool :=
  decide (curlist.insertionSort pyLe = reflist.insertionSort pyLe)

/-- The variable record created by `update_variables` (lines 122-128):
dimension `time`, the three descriptive attributes from the reference
dictionary, the parsed missing value as fill value, and one slot per
`time` index, each reading as the fill value. -/
def backfillVar (tdim : Nat) (mv : VarDict) (m : Rat) : NCVar :=
  { name := mv.name
    stdname := mv.stdname
    lngname := mv.lngname
    units := mv.units
    dtype := mv.dtype
    fillValue := m
    dims := ["time"]
    coords := ""
    perfcat := ""
    data := .oneD (List.replicate tdim m) }

/-- Lines 117-136 (`update_variables`): add one missing variable to a
file.  `createVariable` is called with `dimensions='time'` and
`fill_value=int(missing)` or `float(missing)` according to the recorded
dtype; parsing the recorded missing-value string fails (`ValueError`) on
the empty string and, for the `int` path, on a non-integer literal.
`netCDF4` raises when a variable of that name already exists.  The three
attributes are then attached.  The trailing `numpy.full` assignment in
the source rebinds a local name and never writes to the file, so the
slots of the new variable read as its declared fill value, one per index
of the `time` dimension. -/
def update_variables (ncds : NCDataset) (missingvar : VarDict) :
    Except String NCDataset :=
  match missingvar.missing with
  | none => .error "ValueError: could not parse missing value"
  | some m =>
    if missingvar.dtype = "int32" ∧ m.den ≠ 1 then
      .error "ValueError: invalid literal for int"
    else if missingvar.name ∈ varNames ncds then
      .error "variable already exists"
    else .ok { ncds with
      vars := ncds.vars ++ [backfillVar ncds.timeDim missingvar m] }

/-- Lines 280-286: the body of the backfill loop for one reference
variable: skip it when the file already declares the name, otherwise try
to add it; a failure is logged and the loop continues (`except` at line
285). -/
def addMissing (tmpvars : List String) (acc : NCDataset) (mv : VarDict) :
    NCDataset :=
  if mv.name ∈ tmpvars then acc
  else
    match update_variables acc mv with
    | .ok ds => ds
    | .error _ => acc

/-- Lines 278-288: compare the file's variable list against the
reference keys; on a mismatch, iterate over the reference dictionary and
add every variable the file lacks. -/
def backfillStep (ds : NCDataset) (refs : List VarDict) : NCDataset :=
  if compare_varlists (varNames ds) (refs.map (·.name)) then ds
  else refs.foldl (addMissing (varNames ds)) ds

/-- `numpy.isclose(a, b)` with the default tolerances
`rtol=1e-05`, `atol=1e-08`: true when the absolute difference is within
`atol + rtol * |b|`, with `b` the second (canonical) operand. -/
def isclose (a b : Rat) : Bool := |a - b| ≤ 1 / 100000000 + (1 / 100000) * |b|

/-- Line 191, `numpy.where(numpy.isclose(myvertvalues, [v]))[0][0]`: the
first original-level index whose value is close to `v`, if any. -/
def firstCloseIdx (lv : List Rat) (v : Rat) : Option Nat :=
  match lv with
  | [] => none
  | x :: rest =>
    if isclose x v then some 0 else (firstCloseIdx rest v).map (· + 1)

/-- Lines 189-193, body of the remapping loop for one time index `i`:
for each canonical level `canon[j]`, copy the original cell at the first
close original level, else keep the prefill.  `store` is the cast the
temporary array applies to an assigned cell: the identity on the `f4`
branch, `toI16` on the `i2` branch (the prefill is passed already
cast). -/
def rebuildRow (a : List (List Rat)) (lv canon : List Rat) (prefill : Rat)
    (store : Rat → Rat) (i : Nat) : List Rat :=
  (List.range canon.length).map (fun j =>
    match firstCloseIdx lv (canon.getD j 0) with
    | some k => store (cellAt a i k)
    | none => prefill)

/-- Lines 184-193: the rebuilt `(time, level)` array, pre-filled with the
prefill value and overwritten cell-by-cell where a close level exists,
every written cell passing through the temporary array's storage cast. -/
def rebuildMatrix (a : List (List Rat)) (lv canon : List Rat)
    (prefill : Rat) (store : Rat → Rat) (t : Nat) : List (List Rat) :=
  (List.range t).map (rebuildRow a lv canon prefill store)

/-- The error message logged and raised at lines 154-155. -/
def overwriteNeededMsg : String := "To perform this action overwrite is needed..."

/-- The dataset written by a successful `update_vertlev` (lines
160-207): dimensions `time` (sized by the original `time` variable) and
the vertical coordinate (sized by the canonical grid); the copied `time`
coordinate, the canonical levels as the new vertical coordinate (with
the original vertical coordinate's attributes and fill), the remapped
`soil_temperature`, and the copied global attributes.  On the
non-`float32` branch the temporary array holding the remapped cells has
`dtype='i2'` (line 187), so the prefill (`int()` of the declared fill
value) and every copied cell are wrapped into the int16 range. -/
def vertlevResult (ncds : NCDataset) (vertcoord : String)
    (vertvalues : List Rat) (tv vv sv : NCVar) (a : List (List Rat)) :
    NCDataset :=
  { timeDim := ncSize tv.data
    vars :=
      [{ name := "time", stdname := tv.stdname, lngname := tv.lngname,
         units := tv.units, dtype := "int32", fillValue := 0,
         dims := ["time"], coords := "", perfcat := "", data := tv.data },
       { name := vertcoord, stdname := vv.stdname, lngname := vv.lngname,
         units := vv.units, dtype := "float32", fillValue := vv.fillValue,
         dims := [vertcoord], coords := "", perfcat := "",
         data := .oneD vertvalues },
       { name := "soil_temperature", stdname := sv.stdname,
         lngname := sv.lngname, units := sv.units, dtype := sv.dtype,
         fillValue := sv.fillValue, dims := ["time", vertcoord],
         coords := sv.coords, perfcat := sv.perfcat,
         data := .twoD (rebuildMatrix a (ncValues vv.data) vertvalues
           (if sv.dtype = "float32" then sv.fillValue
            else toI16 sv.fillValue)
           (if sv.dtype = "float32" then id else toI16)
           (ncSize tv.data)) }]
    gattrs := ncds.gattrs }

/-- Lines 138-209 (`update_vertlev`): build the replacement file for a
profile file whose vertical-level count disagrees with the canonical
grid `vertvalues`.  Without the overwrite flag the function raises (lines
151-155).  Otherwise it creates a new dataset with dimensions `time`
(sized by the original `time` variable) and the vertical coordinate
(sized by the canonical grid), copies the `time` coordinate and its
attributes, writes the canonical levels as the new vertical coordinate,
copies every global attribute, and remaps `soil_temperature` (the single
entry of `myvars`) onto the canonical grid, prefilling with the declared
fill value; on the non-`float32` branch the temporary array of line 187
has `dtype='i2'`, so the prefill (after `int()`) and every copied cell
are truncated and wrapped into the int16 range.  Missing variables raise (`KeyError`), as does creating a
variable whose name already exists, and indexing a one-dimensional data
array with two indices (`tmparr[i][...]`). -/
def update_vertlev (overwrite : Bool) (ncds : NCDataset)
    (vertcoord : String) (vertvalues : List Rat) :
    Except String NCDataset :=
  if overwrite = false then .error overwriteNeededMsg
  else
    match lookupVar ncds "time", lookupVar ncds vertcoord,
          lookupVar ncds "soil_temperature" with
    | some tv, some vv, some sv =>
      if vertcoord = "time" ∨ vertcoord = "soil_temperature" then
        .error "variable already exists"
      else
        match sv.data with
        | .oneD _ => .error "IndexError: too many indices for array"
        | .twoD a => .ok (vertlevResult ncds vertcoord vertvalues tv vv sv a)
    | _, _, _ => .error "KeyError: variable not found"

/-- The per-station mutable state of `check_netcdf` (lines 222-225):
the captured reference dictionary `myvariables`, the canonical
vertical-level count `myzsize` (`None` before a profile file is seen),
the canonical level values `myvertvalues`, and the name `myvert` of the
vertical coordinate, which, being a plain local, keeps its last assigned
value across loop iterations (`none` models the unassigned state). -/
structure CheckState where
  myvariables : List VarDict
  myzsize : Option Nat
  myvertvalues : List Rat
  myvert : Option String
deriving DecidableEq, Repr

/-- The initial state at the top of `check_netcdf`. -/
def initState : CheckState := ⟨[], none, [], none⟩

/-- Lines 245-252: when the file declares `soil_temperature`, reject more
than two dimensions (bare `raise`), then set `myvert` to the last of its
dimensions that is a known vertical coordinate; otherwise `myvert` keeps
its previous value. -/
def resolveVert (st : CheckState) (ds : NCDataset) :
    Except String (Option String) :=
  match lookupVar ds "soil_temperature" with
  | some sv =>
    if sv.dims.length > 2 then .error "Cannot handle more than 2 dimensions."
    else
      match (sv.dims.filter (fun d => d = "depth" ∨ d = "height")).getLast? with
      | some v => .ok (some v)
      | none => .ok st.myvert
  | none => .ok st.myvert

/-- Lines 244-263, the `timeSeriesProfile` branch: resolve the vertical
coordinate; on the first profile file (`if not myzsize:`, so also when
the recorded size is zero) record the canonical level count and values;
afterwards, when the level count differs from the canonical one, attempt
a grid rebuild, converting any rebuild failure into the aggregation
error raised at line 263.  Reading `myncds[myvert]` raises when `myvert`
was never assigned (`NameError`) or names no variable of the file. -/
def profileCheck (ow : Bool) (st : CheckState) (ds : NCDataset) :
    Except String (CheckState × Option NCDataset) :=
  match resolveVert st ds with
  | .error e => .error e
  | .ok mv =>
    match mv with
    | none => .error "NameError: name myvert is not defined"
    | some vname =>
      match lookupVar ds vname with
      | none => .error "IndexError: no variable of that name"
      | some vv =>
        match st.myzsize with
        | none =>
          .ok ({ st with myzsize := some (ncSize vv.data),
                         myvertvalues := ncValues vv.data,
                         myvert := some vname }, none)
        | some z =>
          if z = 0 then
            .ok ({ st with myzsize := some (ncSize vv.data),
                           myvertvalues := ncValues vv.data,
                           myvert := some vname }, none)
          else if ncSize vv.data ≠ z then
            match update_vertlev ow ds vname st.myvertvalues with
            | .ok nf => .ok ({ st with myvert := some vname }, some nf)
            | .error _ =>
              .error "This sequence of tiles have varying vertical levels preventing aggregation in time."
          else .ok ({ st with myvert := some vname }, none)

/-- Lines 234-303, the processing of one `.nc` file: read the variable
list, require the `featureType` attribute, run the profile branch when
the file is a `timeSeriesProfile`, capture the reference dictionary from
the first file seen (then `continue`, skipping comparison and
replacement), otherwise compare and backfill, and finally replace the
file content with the rebuilt dataset when one was produced and the
overwrite flag is set (lines 294-303).  The returned Bool records
whether the replacement happened. -/
def processFile (ow : Bool) (st : CheckState) (ds : NCDataset) :
    Except String (CheckState × NCDataset × Bool) :=
  match getFeatureType ds with
  | none => .error "This file does not have featureType."
  | some ft =>
    match (if ft = "timeSeriesProfile" then profileCheck ow st ds
           else .ok (st, none)) with
    | .error e => .error e
    | .ok (st1, tmpname) =>
      if st1.myvariables.isEmpty then
        .ok ({ st1 with myvariables := capture ds }, ds, false)
      else
        let ds1 := backfillStep ds st1.myvariables
        match tmpname, ow with
        | some nf, true => .ok (st1, nf, true)
        | some _, false => .ok (st1, ds1, false)
        | none, _ => .ok (st1, ds1, false)

/-- A directory entry holding a data file. -/
structure NCFile where
  name : String
  ds : NCDataset
deriving DecidableEq, Repr

instance : Inhabited NCFile := ⟨⟨"", default⟩⟩

/-- An entry of a station directory: a (possible) year sub-directory and
its listed files. -/
structure YearEntry where
  name : String
  isDir : Bool
  files : List NCFile
deriving DecidableEq, Repr

/-- An entry of the root directory handed to `traverse_structure`. -/
structure StationEntry where
  name : String
  isDir : Bool
  years : List YearEntry
deriving DecidableEq, Repr

/-- The descending (`reverse=True`) order on year entries. -/
def yearGe (a b : YearEntry) : Prop := pyLe b.name a.name

instance : DecidableRel yearGe := fun a b =>
  inferInstanceAs (Decidable (pyLe b.name a.name))

/-- The descending (`reverse=True`) order on directory files. -/
def fileGe (a b : NCFile) : Prop := pyLe b.name a.name

instance : DecidableRel fileGe := fun a b =>
  inferInstanceAs (Decidable (pyLe b.name a.name))

/-- `sorted(..., reverse=True)` over year entries: descending by name. -/
def sortYearsDesc (l : List YearEntry) : List YearEntry :=
  l.insertionSort yearGe

/-- `sorted(..., reverse=True)` over directory files: descending by name. -/
def sortFilesDesc (l : List NCFile) : List NCFile :=
  l.insertionSort fileGe

/-- Lines 231-234: the files of one year directory in visiting order:
descending by name, keeping only names ending in `.nc`. -/
def yearFilesOrder (y : YearEntry) : List NCFile :=
  (sortFilesDesc y.files).filter (fun f => strEndsWith f.name ".nc")

/-- Lines 226-234: the complete visiting order of a station's files:
year entries descending by name, non-directories skipped, and within
each year directory the `.nc` files descending by name. -/
def stationVisitOrder (years : List YearEntry) : List NCFile :=
  (sortYearsDesc years).flatMap (fun y => if y.isDir then yearFilesOrder y else [])

/-- The file loop of `check_netcdf`, threading the per-station state;
any raised exception aborts the remaining files of the station.  Each
output triple records the file name, its final on-disk content and
whether it was replaced by a rebuilt file. -/
def processFiles (ow : Bool) (st : CheckState) :
    List NCFile → Except String (List (String × NCDataset × Bool))
  | [] => .ok []
  | f :: rest =>
    match processFile ow st f.ds with
    | .error e => .error e
    | .ok (st1, out, repl) =>
      match processFiles ow st1 rest with
      | .error e => .error e
      | .ok outs => .ok ((f.name, out, repl) :: outs)

/-- Lines 211-303 (`check_netcdf`): process one station directory. -/
def check_netcdf (ow : Bool) (years : List YearEntry) :
    Except String (List (String × NCDataset × Bool)) :=
  processFiles ow initState (stationVisitOrder years)

/-- Lines 87-104 (`traverse_structure`): walk the root directory,
skipping non-directories and names not starting with `SN`; run
`check_netcdf` on each station; on an exception, log and re-raise (line
104), which ends the loop.  The result lists the stations on which
`check_netcdf` was invoked, paired with a flag telling whether the walk
was aborted by a re-raised exception. -/
def traverse_structure (ow : Bool) : List StationEntry → List String × Bool
  | [] => ([], false)
  | s :: rest =>
    if s.isDir = false then traverse_structure ow rest
    else if strStartsWith s.name "SN" = false then traverse_structure ow rest
    else
      match check_netcdf ow s.years with
      | .ok _ =>
        let r := traverse_structure ow rest
        (s.name :: r.1, r.2)
      | .error _ => ([s.name], true)

/-! ### The Python string order is a total, transitive, antisymmetric
relation, so `sorted` behaves as a sort. -/

lemma charListLe_total : ∀ a b : List Char,
    charListLe a b = true ∨ charListLe b a = true := by
  intro a
  induction a with
  | nil => intro b; left; rfl
  | cons x as ih =>
    intro b
    cases b with
    | nil => right; rfl
    | cons y bs =>
      rcases lt_trichotomy x y with h | h | h
      · left; simp [charListLe, h]
      · subst h
        rcases ih bs with h2 | h2
        · left; simp [charListLe, h2]
        · right; simp [charListLe, h2]
      · right; simp [charListLe, h]

lemma charListLe_trans : ∀ a b c : List Char, charListLe a b = true →
    charListLe b c = true → charListLe a c = true := by
  intro a
  induction a with
  | nil => intro b c _ _; rfl
  | cons x as ih =>
    intro b c h1 h2
    cases b with
    | nil => simp [charListLe] at h1
    | cons y bs =>
      cases c with
      | nil => simp [charListLe] at h2
      | cons z cs =>
        simp only [charListLe, Bool.or_eq_true, Bool.and_eq_true,
          decide_eq_true_eq] at h1 h2 ⊢
        rcases h1 with h1 | ⟨rfl, h1r⟩
        · rcases h2 with h2 | ⟨rfl, h2r⟩
          · exact Or.inl (lt_trans h1 h2)
          · exact Or.inl h1
        · rcases h2 with h2 | ⟨rfl, h2r⟩
          · exact Or.inl h2
          · exact Or.inr ⟨rfl, ih bs cs h1r h2r⟩

lemma charListLe_antisymm : ∀ a b : List Char, charListLe a b = true →
    charListLe b a = true → a = b := by
  intro a
  induction a with
  | nil =>
    intro b _ h2
    cases b with
    | nil => rfl
    | cons y bs => simp [charListLe] at h2
  | cons x as ih =>
    intro b h1 h2
    cases b with
    | nil => simp [charListLe] at h1
    | cons y bs =>
      simp only [charListLe, Bool.or_eq_true, Bool.and_eq_true,
        decide_eq_true_eq] at h1 h2
      rcases h1 with h1 | ⟨rfl, h1r⟩
      · rcases h2 with h2 | ⟨h2e, h2r⟩
        · exact absurd h2 (lt_asymm h1)
        · subst h2e; exact absurd h1 (lt_irrefl _)
      · rcases h2 with h2 | ⟨h2e, h2r⟩
        · exact absurd h2 (lt_irrefl _)
        · rw [ih bs h1r h2r]

instance : IsTotal String pyLe := ⟨fun a b => charListLe_total a.data b.data⟩

instance : IsTrans String pyLe :=
  ⟨fun a b c => charListLe_trans a.data b.data c.data⟩

instance : IsAntisymm String pyLe :=
  ⟨fun a b h1 h2 => String.ext (charListLe_antisymm a.data b.data h1 h2)⟩

instance : IsTotal YearEntry yearGe :=
  ⟨fun a b => (charListLe_total a.name.data b.name.data).symm⟩

instance : IsTrans YearEntry yearGe :=
  ⟨fun a b c hab hbc => charListLe_trans c.name.data b.name.data a.name.data hbc hab⟩

instance : IsTotal NCFile fileGe :=
  ⟨fun a b => (charListLe_total a.name.data b.name.data).symm⟩

instance : IsTrans NCFile fileGe :=
  ⟨fun a b c hab hbc => charListLe_trans c.name.data b.name.data a.name.data hbc hab⟩

/-! ### Comparison of variable lists -/

lemma compare_varlists_iff (a b : List String) :
    compare_varlists a b = true ↔ a.Perm b := by
  unfold compare_varlists
  rw [decide_eq_true_iff]
  constructor
  · intro h
    exact (List.perm_insertionSort _ a).symm.trans
      (h ▸ List.perm_insertionSort pyLe b)
  · intro h
    exact List.eq_of_perm_of_sorted
      (((List.perm_insertionSort _ a).trans h).trans
        (List.perm_insertionSort _ b).symm)
      (List.sorted_insertionSort _ a) (List.sorted_insertionSort _ b)

/-- C4: the comparison of a file's variable-name list against the
reference's key list is order-independent: any permutation of a list
compares equal to it, so a permuted declaration order never triggers a
mismatch (and hence never triggers a backfill, `backfillStep` returning
on its first branch). -/
theorem c4_compare_order_independent (curlist reflist : List String)
    (h : curlist.Perm reflist) : compare_varlists curlist reflist = true :=
  (compare_varlists_iff _ _).mpr h

theorem c4_compare_order_independent_witness :
    (["time", "wind_speed", "air_temperature"].Perm
      ["air_temperature", "time", "wind_speed"]) ∧
    compare_varlists ["time", "wind_speed", "air_temperature"]
      ["air_temperature", "time", "wind_speed"] = true :=
  ⟨by decide, c4_compare_order_independent _ _ (by decide)⟩

/-! ### Additivity of the backfill -/

lemma addMissing_vars (tmp : List String) (acc : NCDataset) (mv : VarDict) :
    ∃ ext, (addMissing tmp acc mv).vars = acc.vars ++ ext := by
  by_cases h1 : mv.name ∈ tmp
  · exact ⟨[], by simp [addMissing, h1]⟩
  · cases hm : mv.missing with
    | none => exact ⟨[], by simp [addMissing, h1, update_variables, hm]⟩
    | some m =>
      by_cases h2 : mv.dtype = "int32" ∧ m.den ≠ 1
      · exact ⟨[], by simp [addMissing, h1, update_variables, hm, h2]⟩
      · by_cases h3 : mv.name ∈ varNames acc
        · exact ⟨[], by simp [addMissing, h1, update_variables, hm, h2, h3]⟩
        · exact ⟨[backfillVar acc.timeDim mv m],
            by simp [addMissing, h1, update_variables, hm, h2, h3]⟩

lemma foldl_addMissing_vars (tmp : List String) :
    ∀ (refs : List VarDict) (acc : NCDataset),
      ∃ ext, (refs.foldl (addMissing tmp) acc).vars = acc.vars ++ ext := by
  intro refs
  induction refs with
  | nil => exact fun acc => ⟨[], by simp⟩
  | cons r rest ih =>
    intro acc
    obtain ⟨e1, h1⟩ := addMissing_vars tmp acc r
    obtain ⟨e2, h2⟩ := ih (addMissing tmp acc r)
    exact ⟨e1 ++ e2, by rw [List.foldl_cons, h2, h1, List.append_assoc]⟩

/-- C3: backfilling is strictly additive: the reconciliation step keeps
every variable already present in the file unchanged and in place (the
final variable list extends the original one), and when the variable
lists compare equal the file is returned entirely unchanged. -/
theorem c3_backfill_additive (ds : NCDataset) (refs : List VarDict) :
    (∃ ext, (backfillStep ds refs).vars = ds.vars ++ ext) ∧
    (compare_varlists (varNames ds) (refs.map (·.name)) = true →
      backfillStep ds refs = ds) := by
  constructor
  · unfold backfillStep
    split
    · exact ⟨[], by simp⟩
    · exact foldl_addMissing_vars _ refs ds
  · intro h
    simp [backfillStep, h]

/-! ### Concrete sample data for witnesses and counterexamples -/

/-- A `time` coordinate variable with two samples. -/
def vTime : NCVar :=
  ⟨"time", "time", "Time", "seconds since 1970-01-01 00:00:00 UTC",
   "int32", 0, ["time"], "", "", .oneD [0, 3600]⟩

/-- A one-dimensional air-temperature variable. -/
def vAir : NCVar :=
  ⟨"air_temperature", "air_temperature", "Air temperature", "K",
   "float32", -9999, ["time"], "", "", .oneD [273, 274]⟩

/-- A one-dimensional wind-speed variable. -/
def vWind : NCVar :=
  ⟨"wind_speed", "wind_speed", "Wind speed", "m/s",
   "float32", -9999, ["time"], "", "", .oneD [5, 6]⟩

/-- A point-series file declaring `time` and `air_temperature`. -/
def dsTimeAir : NCDataset :=
  ⟨2, [vTime, vAir], [("featureType", "timeSeries")]⟩

theorem c3_backfill_additive_witness :
    backfillStep dsTimeAir (capture dsTimeAir) = dsTimeAir :=
  (c3_backfill_additive dsTimeAir (capture dsTimeAir)).2 (by decide)

/-! ### Creation of missing variables (C2) -/

lemma update_variables_ok (ncds : NCDataset) (mv : VarDict) (m : Rat)
    (hm : mv.missing = some m) (hden : mv.dtype = "int32" → m.den = 1)
    (hni : mv.name ∉ varNames ncds) :
    update_variables ncds mv =
      .ok { ncds with vars := ncds.vars ++ [backfillVar ncds.timeDim mv m] } := by
  have h2 : ¬(mv.dtype = "int32" ∧ m.den ≠ 1) := fun h => h.2 (hden h.1)
  simp [update_variables, hm, h2, hni]

lemma addMissing_ok (tmp : List String) (acc : NCDataset) (mv : VarDict)
    (m : Rat) (ht : mv.name ∉ tmp) (hm : mv.missing = some m)
    (hden : mv.dtype = "int32" → m.den = 1) (hni : mv.name ∉ varNames acc) :
    addMissing tmp acc mv =
      { acc with vars := acc.vars ++ [backfillVar acc.timeDim mv m] } := by
  simp [addMissing, ht, update_variables_ok acc mv m hm hden hni]

lemma addMissing_eq_or (tmp : List String) (acc : NCDataset) (mv : VarDict) :
    addMissing tmp acc mv = acc ∨
    ∃ m, mv.missing = some m ∧
      addMissing tmp acc mv =
        { acc with vars := acc.vars ++ [backfillVar acc.timeDim mv m] } := by
  by_cases h1 : mv.name ∈ tmp
  · left; simp [addMissing, h1]
  · cases hm : mv.missing with
    | none => left; simp [addMissing, h1, update_variables, hm]
    | some m =>
      by_cases h2 : mv.dtype = "int32" ∧ m.den ≠ 1
      · left; simp [addMissing, h1, update_variables, hm, h2]
      · by_cases h3 : mv.name ∈ varNames acc
        · left; simp [addMissing, h1, update_variables, hm, h2, h3]
        · right; exact ⟨m, rfl, by simp [addMissing, h1, update_variables, hm, h2, h3]⟩

lemma addMissing_timeDim (tmp : List String) (acc : NCDataset) (mv : VarDict) :
    (addMissing tmp acc mv).timeDim = acc.timeDim := by
  rcases addMissing_eq_or tmp acc mv with h | ⟨m, _, h⟩ <;> rw [h]

lemma addMissing_varNames (tmp : List String) (acc : NCDataset) (mv : VarDict) :
    varNames (addMissing tmp acc mv) = varNames acc ∨
    varNames (addMissing tmp acc mv) = varNames acc ++ [mv.name] := by
  rcases addMissing_eq_or tmp acc mv with h | ⟨m, _, h⟩
  · left; rw [h]
  · right; rw [h]; unfold varNames; simp [backfillVar]

lemma mem_vars_foldl (tmp : List String) (refs : List VarDict)
    (acc : NCDataset) (v : NCVar) (h : v ∈ acc.vars) :
    v ∈ (refs.foldl (addMissing tmp) acc).vars := by
  obtain ⟨ext, he⟩ := foldl_addMissing_vars tmp refs acc
  rw [he]
  exact List.mem_append_left _ h

lemma mem_varNames_foldl (tmp : List String) (refs : List VarDict)
    (acc : NCDataset) (n : String) (h : n ∈ varNames acc) :
    n ∈ varNames (refs.foldl (addMissing tmp) acc) := by
  obtain ⟨ext, he⟩ := foldl_addMissing_vars tmp refs acc
  unfold varNames at h ⊢
  rw [he, List.map_append]
  exact List.mem_append_left _ h

lemma foldl_addMissing_creates (tmp : List String) :
    ∀ (refs : List VarDict) (acc : NCDataset) (d : VarDict) (m : Rat),
      d ∈ refs → (refs.map (·.name)).Nodup → d.name ∉ tmp →
      d.name ∉ varNames acc → d.missing = some m →
      (d.dtype = "int32" → m.den = 1) →
      backfillVar acc.timeDim d m ∈ (refs.foldl (addMissing tmp) acc).vars := by
  intro refs
  induction refs with
  | nil => intro acc d m hd _ _ _ _ _; exact absurd hd (List.not_mem_nil _)
  | cons r rest ih =>
    intro acc d m hd hnd ht hna hm hden
    rw [List.foldl_cons]
    rcases List.mem_cons.mp hd with rfl | hd2
    · rw [addMissing_ok tmp acc d m ht hm hden hna]
      exact mem_vars_foldl tmp rest _ _
        (List.mem_append_right _ (List.mem_singleton_self _))
    · rw [List.map_cons] at hnd
      have hr : r.name ≠ d.name := by
        intro he
        have hmm : d.name ∈ rest.map (fun x => x.name) :=
          List.mem_map_of_mem _ hd2
        rw [← he] at hmm
        exact (List.nodup_cons.mp hnd).1 hmm
      have hna2 : d.name ∉ varNames (addMissing tmp acc r) := by
        rcases addMissing_varNames tmp acc r with h | h
        · rw [h]; exact hna
        · rw [h]
          intro hmem
          rcases List.mem_append.mp hmem with h' | h'
          · exact hna h'
          · exact hr (List.mem_singleton.mp h').symm
      have hrec := ih (addMissing tmp acc r) d m hd2
        (List.nodup_cons.mp hnd).2 ht hna2 hm hden
      rwa [addMissing_timeDim] at hrec

lemma compare_varlists_false_of_missing (cur ref : List String) (n : String)
    (hn : n ∈ ref) (hc : n ∉ cur) : compare_varlists cur ref = false := by
  cases h : compare_varlists cur ref with
  | false => rfl
  | true => exact absurd (((compare_varlists_iff _ _).mp h).mem_iff.mpr hn) hc

/-- C2 (amended): for a file whose variable set mismatches the reference
and for a reference variable name absent from the file whose captured
missing value is parsable for its recorded dtype (every captured
variable except `time`, whose captured missing value is the empty
string), the reconciliation creates that variable with dimension `time`,
the reference's `standard_name`, `long_name` and `units`, and every
time-indexed slot reading the declared missing value. -/
theorem c2_backfill_creates_missing (ds : NCDataset) (refs : List VarDict)
    (d : VarDict) (m : Rat) (hd : d ∈ refs)
    (hnd : (refs.map (·.name)).Nodup) (habs : d.name ∉ varNames ds)
    (hm : d.missing = some m) (hden : d.dtype = "int32" → m.den = 1) :
    ∃ v ∈ (backfillStep ds refs).vars,
      v.name = d.name ∧ v.dims = ["time"] ∧ v.stdname = d.stdname ∧
      v.lngname = d.lngname ∧ v.units = d.units ∧
      v.data = .oneD (List.replicate ds.timeDim m) := by
  have hcf : compare_varlists (varNames ds) (refs.map (·.name)) = false :=
    compare_varlists_false_of_missing _ _ d.name
      (List.mem_map_of_mem (·.name) hd) habs
  have hmem := foldl_addMissing_creates (varNames ds) refs ds d m hd hnd
    habs habs hm hden
  unfold backfillStep
  rw [hcf]
  exact ⟨backfillVar ds.timeDim d m, by simpa using hmem,
    rfl, rfl, rfl, rfl, rfl, rfl⟩

/-- A point-series file declaring `time`, `air_temperature` and
`wind_speed` (the most complete file of the schema scenarios). -/
def dsFull : NCDataset :=
  ⟨2, [vTime, vAir, vWind], [("featureType", "timeSeries")]⟩

/-- A point-series file declaring only `air_temperature` (no `time`). -/
def dsOnlyAir : NCDataset := ⟨2, [vAir], [("featureType", "timeSeries")]⟩

theorem c2_backfill_creates_missing_witness :
    ∃ v ∈ (backfillStep dsTimeAir (capture dsFull)).vars,
      v.name = "wind_speed" ∧ v.dims = ["time"] ∧ v.stdname = "wind_speed" ∧
      v.lngname = "Wind speed" ∧ v.units = "m/s" ∧
      v.data = .oneD (List.replicate 2 (-9999 : Rat)) :=
  c2_backfill_creates_missing dsTimeAir (capture dsFull) (mkVarDict vWind)
    (-9999) (by decide) (by decide) (by decide) (by decide) (by decide)

/-- C2 (counterexample to the claim as stated): for the file declaring
only `air_temperature` against the reference captured from the full
file, the variable lists mismatch and `time` is a reference name absent
from the file, yet reconciliation does not create `time` (its captured
missing value, the empty string, fails to parse; the failure is logged
and swallowed at line 285): the final variable list is
`[air_temperature, wind_speed]`. -/
theorem c2_counterexample :
    compare_varlists (varNames dsOnlyAir) ((capture dsFull).map (·.name)) = false ∧
    "time" ∈ (capture dsFull).map VarDict.name ∧
    "time" ∉ varNames dsOnlyAir ∧
    varNames (backfillStep dsOnlyAir (capture dsFull)) =
      ["air_temperature", "wind_speed"] ∧
    "time" ∉ varNames (backfillStep dsOnlyAir (capture dsFull)) := by
  refine ⟨by decide, by decide, by decide, by decide, by decide⟩

/-! ### Behaviour of `processFile` (lemmas for the station-level claims) -/

lemma profileCheck_myvariables (ow : Bool) (st : CheckState) (ds : NCDataset)
    (st' : CheckState) (tn : Option NCDataset)
    (h : profileCheck ow st ds = .ok (st', tn)) :
    st'.myvariables = st.myvariables := by
  unfold profileCheck at h
  repeat' split at h
  all_goals try exact Except.noConfusion h
  all_goals injection h with hpair
  all_goals injection hpair with h1 h2
  all_goals rw [← h1]

lemma processFile_myvariables (ow : Bool) (st : CheckState) (ds : NCDataset)
    (st' : CheckState) (out : NCDataset) (repl : Bool)
    (h : processFile ow st ds = .ok (st', out, repl))
    (hne : st.myvariables ≠ []) : st'.myvariables = st.myvariables := by
  unfold processFile at h
  split at h
  · exact absurd h (by simp)
  · split at h
    · exact absurd h (by simp)
    · rename_i ft _ pr st1 tmpname heq
      have hst1 : st1.myvariables = st.myvariables := by
        by_cases hft : ft = "timeSeriesProfile"
        · rw [if_pos hft] at heq
          exact profileCheck_myvariables ow st ds st1 tmpname heq
        · rw [if_neg hft] at heq
          simp at heq
          rw [← heq.1]
      split at h
      · rename_i hemp
        exact absurd (hst1 ▸ List.isEmpty_iff.mp hemp) hne
      · split at h
        all_goals
          simp only [Except.ok.injEq, Prod.mk.injEq] at h
        all_goals obtain ⟨h1, _⟩ := h
        all_goals rw [← h1, hst1]

lemma profileBranch_myvariables (ow : Bool) (st : CheckState)
    (ds : NCDataset) (ft : String) (st1 : CheckState)
    (tmpname : Option NCDataset)
    (heq : (if ft = "timeSeriesProfile" then profileCheck ow st ds
            else .ok (st, none)) = .ok (st1, tmpname)) :
    st1.myvariables = st.myvariables := by
  by_cases hft : ft = "timeSeriesProfile"
  · rw [if_pos hft] at heq
    exact profileCheck_myvariables ow st ds st1 tmpname heq
  · rw [if_neg hft] at heq
    injection heq with hp
    injection hp with h1 h2
    rw [← h1]

lemma processFile_empty_capture (ow : Bool) (st : CheckState)
    (ds : NCDataset) (st' : CheckState) (out : NCDataset) (repl : Bool)
    (h : processFile ow st ds = .ok (st', out, repl))
    (he : st.myvariables = []) :
    st'.myvariables = capture ds ∧ out = ds ∧ repl = false := by
  unfold processFile at h
  split at h
  · exact Except.noConfusion h
  · split at h
    · exact Except.noConfusion h
    · rename_i ft _ pr st1 tmpname heq
      have hst1 := profileBranch_myvariables ow st ds ft st1 tmpname heq
      split at h
      · injection h with hp
        injection hp with h1 hrest
        injection hrest with h2 h3
        exact ⟨by rw [← h1], h2.symm, h3.symm⟩
      · rename_i hemp
        exact absurd (by rw [hst1, he]; rfl) hemp

lemma processFile_result (ow : Bool) (st : CheckState) (ds : NCDataset)
    (st' : CheckState) (out : NCDataset) (repl : Bool)
    (h : processFile ow st ds = .ok (st', out, repl))
    (hne : st.myvariables ≠ []) :
    (repl = true ∧ ow = true) ∨
    (repl = false ∧ out = backfillStep ds st.myvariables) := by
  unfold processFile at h
  split at h
  · exact Except.noConfusion h
  · split at h
    · exact Except.noConfusion h
    · rename_i ft _ pr st1 tmpname heq
      have hst1 := profileBranch_myvariables ow st ds ft st1 tmpname heq
      split at h
      · rename_i hemp
        exact absurd (hst1 ▸ List.isEmpty_iff.mp hemp) hne
      · split at h
        · injection h with hp
          injection hp with h1 hrest
          injection hrest with h2 h3
          exact Or.inl ⟨h3.symm, rfl⟩
        · injection h with hp
          injection hp with h1 hrest
          injection hrest with h2 h3
          exact Or.inr ⟨h3.symm, by rw [← h2, hst1]⟩
        · injection h with hp
          injection hp with h1 hrest
          injection hrest with h2 h3
          exact Or.inr ⟨h3.symm, by rw [← h2, hst1]⟩

lemma foldl_addMissing_mem_name (tmp : List String) :
    ∀ (refs : List VarDict) (acc : NCDataset) (d : VarDict) (m : Rat),
      d ∈ refs → d.name ∉ tmp → d.missing = some m →
      (d.dtype = "int32" → m.den = 1) →
      d.name ∈ varNames (refs.foldl (addMissing tmp) acc) := by
  intro refs
  induction refs with
  | nil => intro acc d m hd _ _ _; exact absurd hd (List.not_mem_nil _)
  | cons r rest ih =>
    intro acc d m hd ht hm hden
    rw [List.foldl_cons]
    rcases List.mem_cons.mp hd with rfl | hd2
    · by_cases hna : d.name ∈ varNames acc
      · apply mem_varNames_foldl
        rcases addMissing_varNames tmp acc d with h | h
        · rw [h]; exact hna
        · rw [h]; exact List.mem_append_left _ hna
      · rw [addMissing_ok tmp acc d m ht hm hden hna]
        apply mem_varNames_foldl
        simp [varNames, backfillVar]
    · exact ih (addMissing tmp acc r) d m hd2 ht hm hden

/-- Side condition on a captured reference dictionary: every entry other
than `time` has a parsable missing value, integer-valued when the
recorded dtype is `int32`.  Capture from a well-typed file always
satisfies this: the dictionary of every variable other than `time`
stores `str` of its fill value, and an `int32` fill value is an
integer. -/
def refsOK (refs : List VarDict) : Prop :=
  ∀ d ∈ refs, d.name = "time" ∨
    (d.missing.isSome = true ∧
      (d.dtype ≠ "int32" ∨ (d.missing.getD 0).den = 1))

instance (refs : List VarDict) : Decidable (refsOK refs) :=
  inferInstanceAs (Decidable (∀ d ∈ refs, d.name = "time" ∨
    (d.missing.isSome = true ∧ (d.dtype ≠ "int32" ∨ (d.missing.getD 0).den = 1))))

lemma backfill_superset (ds : NCDataset) (refs : List VarDict)
    (hok : refsOK refs)
    (htime : "time" ∈ varNames (backfillStep ds refs)) :
    ∀ n ∈ refs.map (·.name), n ∈ varNames (backfillStep ds refs) := by
  intro n hn
  cases hc : compare_varlists (varNames ds) (refs.map (·.name)) with
  | true =>
    have hds : backfillStep ds refs = ds := by
      unfold backfillStep
      rw [hc]
      rfl
    rw [hds]
    exact ((compare_varlists_iff _ _).mp hc).mem_iff.mpr hn
  | false =>
    have hds : backfillStep ds refs =
        refs.foldl (addMissing (varNames ds)) ds := by
      unfold backfillStep
      rw [hc]
      rfl
    rw [hds] at htime ⊢
    by_cases hmem : n ∈ varNames ds
    · exact mem_varNames_foldl _ _ _ _ hmem
    · by_cases hteq : n = "time"
      · rw [hteq]; exact htime
      · obtain ⟨d, hd, hdn⟩ := List.mem_map.mp hn
        rcases hok d hd with hdt | ⟨hsome, hor⟩
        · exact absurd (hdn ▸ hdt) (by rw [hdn] at hdn ⊢; exact fun he => hteq (hdn ▸ he))
        · cases hmm : d.missing with
          | none => rw [hmm] at hsome; exact absurd hsome (by simp)
          | some m =>
            subst hdn
            refine foldl_addMissing_mem_name _ refs ds d m hd hmem hmm ?_
            intro hdt2
            rcases hor with hor | hor
            · exact absurd hdt2 hor
            · rwa [hmm] at hor

lemma processFiles_superset (ow : Bool) :
    ∀ (files : List NCFile) (st : CheckState)
      (outs : List (String × NCDataset × Bool)),
      processFiles ow st files = .ok outs → st.myvariables ≠ [] →
      refsOK st.myvariables →
      ∀ o ∈ outs, o.2.2 = false → "time" ∈ varNames o.2.1 →
        ∀ n ∈ st.myvariables.map (·.name), n ∈ varNames o.2.1 := by
  intro files
  induction files with
  | nil =>
    intro st outs h _ _ o ho _ _ n _
    injection h with h1
    rw [← h1] at ho
    exact absurd ho (List.not_mem_nil o)
  | cons f rest ih =>
    intro st outs h hne hok o ho hrepl htime n hn
    unfold processFiles at h
    split at h
    · exact Except.noConfusion h
    · rename_i st1 out repl heq
      split at h
      · exact Except.noConfusion h
      · rename_i outs1 heq2
        injection h with h1
        rw [← h1] at ho
        rcases List.mem_cons.mp ho with rfl | ho2
        · rcases processFile_result ow st f.ds st1 out repl heq hne with
            ⟨hr, _⟩ | ⟨hr, hout⟩
          · have hrf : repl = false := hrepl
            rw [hrf] at hr
            exact Bool.noConfusion hr
          · show n ∈ varNames out
            have htime2 : "time" ∈ varNames out := htime
            rw [hout] at htime2 ⊢
            exact backfill_superset f.ds st.myvariables hok htime2 n hn
        · have hmv := processFile_myvariables ow st f.ds st1 out repl heq hne
          have hne1 : st1.myvariables ≠ [] := by rw [hmv]; exact hne
          have hok1 : refsOK st1.myvariables := by rw [hmv]; exact hok
          have hn1 : n ∈ st1.myvariables.map (·.name) := by rw [hmv]; exact hn
          exact ih st1 outs1 heq2 hne1 hok1 o ho2 hrepl htime n hn1

/-- C1 (amended): for a completed station run whose first visited file
has at least one variable and captures a reference dictionary with
parsable missing values (every entry except `time`), every later
visited file that was not wholesale-replaced by a grid rebuild and whose
final content still declares `time` ends with a variable-name set that
is a superset of the reference keys.  The two side conditions are forced
by the code: backfilling `time` itself always fails (its captured
missing value is the empty string, and the failure is swallowed at line
285), and a replaced file is the rebuilt dataset, which drops the
backfilled variables. -/
theorem c1_station_superset (ow : Bool) (years : List YearEntry)
    (outs : List (String × NCDataset × Bool))
    (h : check_netcdf ow years = .ok outs) (f0 : NCFile)
    (rest : List NCFile) (hvisit : stationVisitOrder years = f0 :: rest)
    (hne : f0.ds.vars ≠ []) (hok : refsOK (capture f0.ds)) :
    ∀ o ∈ outs.tail, o.2.2 = false → "time" ∈ varNames o.2.1 →
      ∀ n ∈ (capture f0.ds).map (·.name), n ∈ varNames o.2.1 := by
  unfold check_netcdf at h
  rw [hvisit] at h
  unfold processFiles at h
  split at h
  · exact Except.noConfusion h
  · rename_i st1 out repl heq
    split at h
    · exact Except.noConfusion h
    · rename_i outs1 heq2
      injection h with h1
      obtain ⟨hcap, _, _⟩ :=
        processFile_empty_capture ow initState f0.ds st1 out repl heq rfl
      have hne1 : st1.myvariables ≠ [] := by
        rw [hcap]
        unfold capture
        intro hc
        exact hne (List.map_eq_nil_iff.mp hc)
      have hok1 : refsOK st1.myvariables := by rw [hcap]; exact hok
      intro o ho hrepl htime n hn
      rw [← h1] at ho
      have hn1 : n ∈ st1.myvariables.map (·.name) := by rw [hcap]; exact hn
      exact processFiles_superset ow rest st1 outs1 heq2 hne1 hok1 o
        (by simpa using ho) hrepl htime n hn1

/-- A station year directory whose newest file (`b.nc`, visited first)
declares `time` and `air_temperature` while the older `a.nc` lacks
`time`. -/
def yearC1 : YearEntry :=
  ⟨"2020", true, [⟨"a.nc", dsOnlyAir⟩, ⟨"b.nc", dsTimeAir⟩]⟩

/-- C1 (counterexample to the claim as stated): the station completes
(`check_netcdf` returns normally), `time` is a key of the captured
reference schema, but the final variable-name set of the file visited
after the first is `[air_temperature]`, which does not contain `time`
and hence is not a superset of the reference keys: backfilling `time`
fails on its empty captured missing value and the failure is only
logged. -/
theorem c1_counterexample :
    check_netcdf false [yearC1] =
      .ok [("b.nc", dsTimeAir, false), ("a.nc", dsOnlyAir, false)] ∧
    "time" ∈ (capture dsTimeAir).map VarDict.name ∧
    "time" ∉ varNames dsOnlyAir :=
  ⟨rfl, by decide, by decide⟩

/-- A station year directory whose newest file (`b.nc`, visited first)
declares `time`, `air_temperature` and `wind_speed`, while the older
`a.nc` declares only `time` and `air_temperature`. -/
def yearC1w : YearEntry :=
  ⟨"2020", true, [⟨"a.nc", dsTimeAir⟩, ⟨"b.nc", dsFull⟩]⟩

/-- The content of `a.nc` after the station of `yearC1w` is processed:
the original two variables followed by the backfilled `wind_speed`. -/
def dsTimeAirBackfilled : NCDataset :=
  { dsTimeAir with
    vars := dsTimeAir.vars ++ [backfillVar 2 (mkVarDict vWind) (-9999)] }

theorem c1_station_superset_witness :
    "wind_speed" ∈ varNames dsTimeAirBackfilled :=
  c1_station_superset false [yearC1w]
    [("b.nc", dsFull, false), ("a.nc", dsTimeAirBackfilled, false)] rfl
    ⟨"b.nc", dsFull⟩ [⟨"a.nc", dsTimeAir⟩] rfl (by decide) (by decide)
    ("a.nc", dsTimeAirBackfilled, false) (List.mem_cons_self _ _)
    rfl (by decide) "wind_speed" (by decide)

/-! ### The profile branch: rebuild trigger and overwrite policy -/

/-- C9: a grid rebuild is triggered only by a vertical-level count
difference.  When the canonical count is established (non-`None`,
non-zero) and the file's vertical-coordinate size equals it, processing
the file performs no rebuild and no replacement: the result is exactly
the (possibly backfilled) original file with the replacement flag
`false`, and no hypothesis restricts the file's vertical-level values,
which may differ arbitrarily from the canonical ones. -/
theorem c9_no_rebuild_on_equal_count (ow : Bool) (st : CheckState)
    (ds : NCDataset) (z : Nat) (vname : String) (vv : NCVar)
    (hft : getFeatureType ds = some "timeSeriesProfile")
    (hrv : resolveVert st ds = .ok (some vname))
    (hlv : lookupVar ds vname = some vv)
    (hz : st.myzsize = some z) (hz0 : z ≠ 0)
    (hsz : ncSize vv.data = z)
    (hmv : st.myvariables ≠ []) :
    processFile ow st ds =
      .ok ({ st with myvert := some vname },
        backfillStep ds st.myvariables, false) := by
  have hemp : st.myvariables.isEmpty = false := by
    cases hc : st.myvariables with
    | nil => exact absurd hc hmv
    | cons a l => rfl
  have hpc : profileCheck ow st ds =
      .ok ({ st with myvert := some vname }, none) := by
    simp only [profileCheck, hrv, hlv, hz]
    rw [if_neg hz0, if_neg (by rw [hsz]; exact fun hc => hc rfl)]
  simp only [processFile, hft, hpc]
  simp [hemp]

/-- A `time` coordinate with a single sample. -/
def vTimeC9 : NCVar :=
  ⟨"time", "time", "Time", "seconds since 1970-01-01 00:00:00 UTC",
   "int32", 0, ["time"], "", "", .oneD [0]⟩

/-- A one-level depth coordinate whose value (7) differs from the
canonical level (500). -/
def vDepthC9 : NCVar :=
  ⟨"depth", "depth", "Depth", "m", "float32", -9999, ["depth"], "", "",
   .oneD [7]⟩

/-- A profile variable over one time sample and one level. -/
def vSoilC9 : NCVar :=
  ⟨"soil_temperature", "soil_temperature", "Soil temperature", "K",
   "float32", -9999, ["time", "depth"], "time depth", "P1", .twoD [[5]]⟩

/-- A profile file whose vertical-level count (1) equals the canonical
count while its level value differs from the canonical one. -/
def dsProfileC9 : NCDataset :=
  ⟨1, [vTimeC9, vDepthC9, vSoilC9], [("featureType", "timeSeriesProfile")]⟩

theorem c9_no_rebuild_on_equal_count_witness :
    processFile true
      ⟨capture dsProfileC9, some 1, [500], some "depth"⟩ dsProfileC9 =
      .ok (⟨capture dsProfileC9, some 1, [500], some "depth"⟩,
        dsProfileC9, false) := by
  have h := c9_no_rebuild_on_equal_count true
    ⟨capture dsProfileC9, some 1, [500], some "depth"⟩ dsProfileC9 1
    "depth" vDepthC9 rfl rfl rfl rfl (by decide) rfl (by decide)
  rw [h]
  rfl

/-- C7: replacement never happens when the overwrite flag is off:
`update_vertlev` raises the overwrite error before building anything
(so the original file is untouched and the per-file operation fails),
and no successful `processFile` outcome carries the replacement flag
when overwrite is disabled. -/
theorem c7_no_replacement_without_overwrite (ncds : NCDataset)
    (vertcoord : String) (vertvalues : List Rat) (st : CheckState)
    (ds : NCDataset) :
    update_vertlev false ncds vertcoord vertvalues =
      .error overwriteNeededMsg ∧
    ∀ st' out, processFile false st ds ≠ .ok (st', out, true) := by
  constructor
  · rfl
  · intro st' out h
    by_cases he : st.myvariables = []
    · obtain ⟨_, _, hr⟩ :=
        processFile_empty_capture false st ds st' out true h he
      exact Bool.noConfusion hr
    · rcases processFile_result false st ds st' out true h he with
        ⟨_, how⟩ | ⟨hr, _⟩
      · exact Bool.noConfusion how
      · exact Bool.noConfusion hr

theorem c7_no_replacement_without_overwrite_witness :
    update_vertlev false dsTimeAir "depth" [] = .error overwriteNeededMsg ∧
    processFile false initState dsTimeAir ≠
      .ok (initState, dsTimeAir, true) :=
  ⟨(c7_no_replacement_without_overwrite dsTimeAir "depth" [] initState
      dsTimeAir).1,
   (c7_no_replacement_without_overwrite dsTimeAir "depth" [] initState
      dsTimeAir).2 initState dsTimeAir⟩


/-! ### Grid rebuild: value preservation (C5) and variable set (C10) -/

lemma update_vertlev_inv (ow : Bool) (ncds : NCDataset) (vertcoord : String)
    (canon : List Rat) (nds : NCDataset)
    (h : update_vertlev ow ncds vertcoord canon = .ok nds) :
    ∃ tv vv sv a,
      lookupVar ncds "time" = some tv ∧
      lookupVar ncds vertcoord = some vv ∧
      lookupVar ncds "soil_temperature" = some sv ∧
      sv.data = .twoD a ∧ vertcoord ≠ "time" ∧
      vertcoord ≠ "soil_temperature" ∧
      nds = vertlevResult ncds vertcoord canon tv vv sv a := by
  unfold update_vertlev at h
  split at h
  · exact Except.noConfusion h
  · split at h
    · rename_i tv vv sv htv hvv hsv
      split at h
      · exact Except.noConfusion h
      · rename_i hguard
        split at h
        · exact Except.noConfusion h
        · rename_i a hdata
          injection h with h1
          exact ⟨tv, vv, sv, a, htv, hvv, hsv, hdata,
            fun hc => hguard (Or.inl hc), fun hc => hguard (Or.inr hc),
            h1.symm⟩
    · exact Except.noConfusion h

lemma firstCloseIdx_some : ∀ (lv : List Rat) (c : Rat) (k : Nat),
    firstCloseIdx lv c = some k →
    k < lv.length ∧ isclose (lv.getD k 0) c = true := by
  intro lv
  induction lv with
  | nil => intro c k h; exact Option.noConfusion h
  | cons x rest ih =>
    intro c k h
    unfold firstCloseIdx at h
    by_cases hx : isclose x c = true
    · rw [if_pos hx] at h
      injection h with hk
      rw [← hk]
      exact ⟨Nat.succ_pos _, hx⟩
    · rw [if_neg hx] at h
      cases hr : firstCloseIdx rest c with
      | none => rw [hr] at h; exact Option.noConfusion h
      | some k2 =>
        rw [hr] at h
        injection h with hk
        obtain ⟨h1, h2⟩ := ih c k2 hr
        rw [← hk]
        exact ⟨Nat.succ_lt_succ h1, h2⟩

lemma firstCloseIdx_none : ∀ (lv : List Rat) (c : Rat),
    firstCloseIdx lv c = none →
    ∀ k, k < lv.length → isclose (lv.getD k 0) c = false := by
  intro lv
  induction lv with
  | nil => intro c _ k hk; exact absurd hk (Nat.not_lt_zero k)
  | cons x rest ih =>
    intro c h k hk
    unfold firstCloseIdx at h
    by_cases hx : isclose x c = true
    · rw [if_pos hx] at h; exact Option.noConfusion h
    · rw [if_neg hx] at h
      cases k with
      | zero => simpa using hx
      | succ k2 =>
        cases hr : firstCloseIdx rest c with
        | none => exact ih c hr k2 (Nat.lt_of_succ_lt_succ hk)
        | some k3 => rw [hr] at h; exact Option.noConfusion h

lemma rebuildMatrix_cell (a : List (List Rat)) (lv canon : List Rat)
    (prefill : Rat) (store : Rat → Rat) (t i j : Nat) (hi : i < t)
    (hj : j < canon.length) :
    cellAt (rebuildMatrix a lv canon prefill store t) i j =
      match firstCloseIdx lv (canon.getD j 0) with
      | some k => store (cellAt a i k)
      | none => prefill := by
  unfold rebuildMatrix cellAt
  have h1 : ((List.range t).map
        (rebuildRow a lv canon prefill store)).getD i [] =
      rebuildRow a lv canon prefill store i := by
    rw [List.getD_eq_getElem?_getD, List.getElem?_map, List.getElem?_range hi]
    rfl
  rw [h1]
  unfold rebuildRow
  rw [List.getD_eq_getElem?_getD, List.getElem?_map, List.getElem?_range hj]
  rfl

lemma wrapI16_eq_self (n : Int) (hlo : -32768 ≤ n) (hhi : n ≤ 32767) :
    wrapI16 n = n := by
  unfold wrapI16
  rw [Int.emod_eq_of_lt (by omega) (by omega)]
  omega

lemma toI16_eq_self (q : Rat) (hden : q.den = 1) (hlo : -32768 ≤ q)
    (hhi : q ≤ 32767) : toI16 q = q := by
  have hq : (q.num : Rat) = q := Rat.coe_int_num_of_den_eq_one hden
  have hlo2 : (-32768 : Int) ≤ q.num := by
    rw [← hq] at hlo
    exact_mod_cast hlo
  have hhi2 : q.num ≤ 32767 := by
    rw [← hq] at hhi
    exact_mod_cast hhi
  unfold toI16
  rw [hden]
  simp only [Nat.cast_one, Int.tdiv_one]
  rw [wrapI16_eq_self q.num hlo2 hhi2]
  exact hq

lemma toI16_zero : toI16 0 = 0 := by
  unfold toI16 wrapI16
  norm_num

lemma toI16_getD_row (row : List Rat) (k : Nat)
    (hrow : ∀ x ∈ row, x.den = 1 ∧ -32768 ≤ x ∧ x ≤ 32767) :
    toI16 (row.getD k 0) = row.getD k 0 := by
  by_cases hk : k < row.length
  · have hx : row.getD k 0 ∈ row := by
      rw [List.getD_eq_getElem?_getD, List.getElem?_eq_getElem hk]
      exact List.getElem_mem hk
    obtain ⟨h1, h2, h3⟩ := hrow _ hx
    exact toI16_eq_self _ h1 h2 h3
  · rw [List.getD_eq_getElem?_getD, List.getElem?_eq_none (by omega)]
    exact toI16_zero

lemma toI16_cellAt (a : List (List Rat)) (i k : Nat)
    (hall : ∀ row ∈ a, ∀ x ∈ row, x.den = 1 ∧ -32768 ≤ x ∧ x ≤ 32767) :
    toI16 (cellAt a i k) = cellAt a i k := by
  unfold cellAt
  by_cases hi : i < a.length
  · have hrow : a.getD i [] ∈ a := by
      rw [List.getD_eq_getElem?_getD, List.getElem?_eq_getElem hi]
      exact List.getElem_mem hi
    exact toI16_getD_row _ k (hall _ hrow)
  · rw [List.getD_eq_getElem?_getD a i [],
      List.getElem?_eq_none (by omega)]
    exact toI16_zero

/-- C5 (amended): for a grid rebuild, every cell of the rebuilt profile
variable at `(time index, canonical level index)` either equals the
original data cell at the same time index and some original level index
whose level value is within the floating-point tolerance of the
canonical level, or, when no original level is within tolerance, equals
the variable's declared missing value — provided the values survive the
`dtype='i2'` temporary array of line 187: the variable is `float32`, or
its declared fill value and data cells are all integers within the int16
range.  Outside that range the program truncates and wraps the stored
cells, altering them (see the counterexample). -/
theorem c5_rebuild_value_preserving (ow : Bool) (ncds nds : NCDataset)
    (vertcoord : String) (canon : List Rat) (tv vv sv : NCVar)
    (a : List (List Rat)) (lv : List Rat)
    (h : update_vertlev ow ncds vertcoord canon = .ok nds)
    (htv : lookupVar ncds "time" = some tv)
    (hvv : lookupVar ncds vertcoord = some vv)
    (hsv : lookupVar ncds "soil_temperature" = some sv)
    (ha : sv.data = .twoD a) (hlv : vv.data = .oneD lv)
    (hwt : sv.dtype = "float32" ∨
      (sv.fillValue.den = 1 ∧ -32768 ≤ sv.fillValue ∧ sv.fillValue ≤ 32767 ∧
       ∀ row ∈ a, ∀ x ∈ row, x.den = 1 ∧ -32768 ≤ x ∧ x ≤ 32767))
    (i j : Nat) (hi : i < ncSize tv.data) (hj : j < canon.length) :
    ∃ ns, lookupVar nds "soil_temperature" = some ns ∧
    ∃ mat, ns.data = .twoD mat ∧
      ((∃ k, k < lv.length ∧
          isclose (lv.getD k 0) (canon.getD j 0) = true ∧
          cellAt mat i j = cellAt a i k) ∨
       ((∀ k, k < lv.length → isclose (lv.getD k 0) (canon.getD j 0) = false) ∧
          cellAt mat i j = sv.fillValue)) := by
  obtain ⟨tv2, vv2, sv2, a2, htv2, hvv2, hsv2, hdata2, hg1, hg2, hres⟩ :=
    update_vertlev_inv ow ncds vertcoord canon nds h
  rw [htv] at htv2
  injection htv2 with htveq
  subst htveq
  rw [hvv] at hvv2
  injection hvv2 with hvveq
  subst hvveq
  rw [hsv] at hsv2
  injection hsv2 with hsveq
  subst hsveq
  rw [ha] at hdata2
  injection hdata2 with haeq
  subst haeq
  have hns : lookupVar nds "soil_temperature" = some
      { name := "soil_temperature", stdname := sv.stdname,
        lngname := sv.lngname, units := sv.units, dtype := sv.dtype,
        fillValue := sv.fillValue, dims := ["time", vertcoord],
        coords := sv.coords, perfcat := sv.perfcat,
        data := .twoD (rebuildMatrix a (ncValues vv.data) canon
          (if sv.dtype = "float32" then sv.fillValue
           else toI16 sv.fillValue)
          (if sv.dtype = "float32" then id else toI16)
          (ncSize tv.data)) } := by
    rw [hres]
    unfold vertlevResult lookupVar
    rw [List.find?_cons_of_neg _ (by simp), List.find?_cons_of_neg _
      (by simp [hg2]), List.find?_cons_of_pos _ (by simp)]
  have hpre : (if sv.dtype = "float32" then sv.fillValue
      else toI16 sv.fillValue) = sv.fillValue := by
    by_cases hf : sv.dtype = "float32"
    · rw [if_pos hf]
    · rw [if_neg hf]
      rcases hwt with hd | ⟨hd1, hd2, hd3, _⟩
      · exact absurd hd hf
      · exact toI16_eq_self _ hd1 hd2 hd3
  have hstore : ∀ x y : Nat,
      (if sv.dtype = "float32" then id else toI16) (cellAt a x y) =
        cellAt a x y := by
    intro x y
    by_cases hf : sv.dtype = "float32"
    · rw [if_pos hf]; rfl
    · rw [if_neg hf]
      rcases hwt with hd | ⟨_, _, _, hall⟩
      · exact absurd hd hf
      · exact toI16_cellAt a x y hall
  refine ⟨_, hns, _, rfl, ?_⟩
  have hcell := rebuildMatrix_cell a (ncValues vv.data) canon
    (if sv.dtype = "float32" then sv.fillValue
     else toI16 sv.fillValue)
    (if sv.dtype = "float32" then id else toI16)
    (ncSize tv.data) i j hi hj
  rw [hlv] at hcell
  simp only [ncValues] at hcell
  cases hfc : firstCloseIdx lv (canon.getD j 0) with
  | some k =>
    rw [hfc] at hcell
    obtain ⟨hk1, hk2⟩ := firstCloseIdx_some lv (canon.getD j 0) k hfc
    left
    refine ⟨k, hk1, hk2, ?_⟩
    rw [hlv]
    simp only [ncValues]
    rw [hcell]
    exact hstore i k
  | none =>
    rw [hfc] at hcell
    right
    refine ⟨firstCloseIdx_none lv (canon.getD j 0) hfc, ?_⟩
    rw [hlv]
    simp only [ncValues]
    rw [hcell, hpre]

/-- C10: the file written by a grid rebuild declares exactly the `time`
coordinate, the vertical coordinate and the designated profile variable
`soil_temperature`; every other variable of the original file is absent
from it, so replacing the original with the rebuilt file drops those
variables. -/
theorem c10_rebuild_drops_other_vars (ow : Bool) (ncds nds : NCDataset)
    (vertcoord : String) (canon : List Rat)
    (h : update_vertlev ow ncds vertcoord canon = .ok nds) :
    varNames nds = ["time", vertcoord, "soil_temperature"] ∧
    ∀ v ∈ ncds.vars,
      v.name ∉ (["time", vertcoord, "soil_temperature"] : List String) →
      v.name ∉ varNames nds := by
  obtain ⟨tv, vv, sv, a, _, _, _, _, _, _, hres⟩ :=
    update_vertlev_inv ow ncds vertcoord canon nds h
  subst hres
  exact ⟨rfl, fun v _ hnot => hnot⟩

/-- A two-level depth coordinate. -/
def vDepth : NCVar :=
  ⟨"depth", "depth", "Depth", "m", "float32", -9999, ["depth"], "", "",
   .oneD [1, 2]⟩

/-- A profile variable over two time samples and two levels. -/
def vSoil : NCVar :=
  ⟨"soil_temperature", "soil_temperature", "Soil temperature", "K",
   "float32", -9999, ["time", "depth"], "time depth", "P1",
   .twoD [[1, 2], [3, 4]]⟩

/-- A profile file with four variables, among them one
(`air_temperature`) that a grid rebuild does not carry over. -/
def dsProfile : NCDataset :=
  ⟨2, [vTime, vDepth, vSoil, vAir], [("featureType", "timeSeriesProfile")]⟩

/-- The result of rebuilding `dsProfile` onto the canonical grid `[1]`. -/
def ndsP : NCDataset :=
  (update_vertlev true dsProfile "depth" [1]).toOption.getD default

theorem c5_rebuild_value_preserving_witness :
    ∃ ns, lookupVar ndsP "soil_temperature" = some ns ∧
    ∃ mat, ns.data = .twoD mat ∧
      ((∃ k, k < ([1, 2] : List Rat).length ∧
          isclose (([1, 2] : List Rat).getD k 0)
            (([1] : List Rat).getD 0 0) = true ∧
          cellAt mat 0 0 = cellAt [[1, 2], [3, 4]] 0 k) ∨
       ((∀ k, k < ([1, 2] : List Rat).length →
          isclose (([1, 2] : List Rat).getD k 0)
            (([1] : List Rat).getD 0 0) = false) ∧
          cellAt mat 0 0 = vSoil.fillValue)) :=
  c5_rebuild_value_preserving true dsProfile ndsP "depth" [1] vTime vDepth
    vSoil [[1, 2], [3, 4]] [1, 2] rfl rfl rfl rfl rfl rfl (Or.inl rfl)
    0 0 (by decide) (by decide)

lemma isclose_of_le {a b : Rat}
    (h : |a - b| ≤ 1 / 100000000 + (1 / 100000) * |b|) :
    isclose a b = true := by
  unfold isclose
  exact decide_eq_true h

lemma isclose_of_not_le {a b : Rat}
    (h : ¬(|a - b| ≤ 1 / 100000000 + (1 / 100000) * |b|)) :
    isclose a b = false := by
  unfold isclose
  exact decide_eq_false h

/-- An `int32` profile variable with the conventional netCDF int32 fill
value and a data cell outside the int16 range. -/
def vSoilI32 : NCVar :=
  ⟨"soil_temperature", "soil_temperature", "Soil temperature", "K",
   "int32", -2147483647, ["time", "depth"], "time depth", "P1",
   .twoD [[100000]]⟩

/-- A one-level depth coordinate at level 1. -/
def vDepthI32 : NCVar :=
  ⟨"depth", "depth", "Depth", "m", "float32", -9999, ["depth"], "", "",
   .oneD [1]⟩

/-- A profile file whose `int32` data and fill value do not fit the
`i2` temporary array of the grid rebuild. -/
def dsProfileI32 : NCDataset :=
  ⟨1, [vTimeC9, vDepthI32, vSoilI32],
   [("featureType", "timeSeriesProfile")]⟩

/-- The result of rebuilding `dsProfileI32` onto the canonical grid
`[1, 50]`. -/
def ndsI32 : NCDataset :=
  (update_vertlev true dsProfileI32 "depth" [1, 50]).toOption.getD default

/-- C5 (counterexample to the claim as stated): rebuilding an `int32`
profile file stages its cells through the `dtype='i2'` temporary array
of line 187.  At canonical level index 0 the sole original level (1)
matches the canonical level exactly, yet the rebuilt cell is the
int16-wrapped -31072 rather than the original cell value 100000; at
canonical level index 1 (level 50) no original level is within
tolerance, yet the rebuilt cell is 1 — the int16 wrap of the declared
missing value -2147483647 — rather than the missing value itself. -/
theorem c5_counterexample :
    update_vertlev true dsProfileI32 "depth" [1, 50] = .ok ndsI32 ∧
    (∃ ns, lookupVar ndsI32 "soil_temperature" = some ns ∧
      ∃ mat, ns.data = .twoD mat ∧
        cellAt mat 0 0 = -31072 ∧ cellAt mat 0 1 = 1) ∧
    isclose (1 : Rat) (([1, 50] : List Rat).getD 0 0) = true ∧
    cellAt [[(100000 : Rat)]] 0 0 = 100000 ∧
    ((-31072 : Rat) ≠ 100000) ∧
    (∀ k, k < 1 → isclose (([1] : List Rat).getD k 0)
      (([1, 50] : List Rat).getD 1 0) = false) ∧
    ((1 : Rat) ≠ vSoilI32.fillValue) := by
  have h1 : isclose (1 : Rat) 1 = true := by
    apply isclose_of_le
    simp only [sub_self, abs_zero, abs_one]
    norm_num
  have h2 : isclose (1 : Rat) 50 = false := by
    apply isclose_of_not_le
    intro hle
    rw [show ((1 : Rat) - 50) = -49 by norm_num, abs_neg,
      abs_of_nonneg (by norm_num : (0 : Rat) ≤ 49),
      abs_of_nonneg (by norm_num : (0 : Rat) ≤ 50)] at hle
    norm_num at hle
  refine ⟨rfl, ?_, h1, rfl, by decide, ?_, by decide⟩
  · refine ⟨_, rfl, _, rfl, ?_, ?_⟩
    · rw [rebuildMatrix_cell _ _ _ _ _ _ 0 0 (by decide) (by decide)]
      have hf0 : firstCloseIdx (ncValues vDepthI32.data)
          (([1, 50] : List Rat).getD 0 0) = some 0 := by
        show firstCloseIdx [1] (1 : Rat) = some 0
        unfold firstCloseIdx
        rw [if_pos h1]
      rw [hf0]
      show toI16 (cellAt [[(100000 : Rat)]] 0 0) = -31072
      decide
    · rw [rebuildMatrix_cell _ _ _ _ _ _ 0 1 (by decide) (by decide)]
      have hf1 : firstCloseIdx (ncValues vDepthI32.data)
          (([1, 50] : List Rat).getD 1 0) = none := by
        show firstCloseIdx [1] (50 : Rat) = none
        unfold firstCloseIdx
        rw [if_neg (by simp [h2])]
        rfl
      rw [hf1]
      show toI16 vSoilI32.fillValue = 1
      decide
  · intro k hk
    have hk0 : k = 0 := by omega
    subst hk0
    show isclose (1 : Rat) 50 = false
    exact h2

theorem c10_rebuild_drops_other_vars_witness :
    varNames ndsP = ["time", "depth", "soil_temperature"] ∧
    "air_temperature" ∉ varNames ndsP := by
  have h := c10_rebuild_drops_other_vars true dsProfile ndsP "depth" [1] rfl
  exact ⟨h.1, h.2 vAir (List.mem_cons_of_mem _ (List.mem_cons_of_mem _
    (List.mem_cons_of_mem _ (List.mem_cons_self _ _)))) (by decide)⟩

/-! ### Traversal order (C8) -/

lemma flatMapYears_eq_nil (g : YearEntry → List NCFile) :
    ∀ s : List YearEntry, (∀ x ∈ s, g x = []) → s.flatMap g = [] := by
  intro s
  induction s with
  | nil => intro _; rfl
  | cons a l ih =>
    intro h
    rw [List.flatMap_cons, h a (List.mem_cons_self a l), List.nil_append]
    exact ih (fun x hx => h x (List.mem_cons_of_mem a hx))

lemma yearFilesOrder_head (y : YearEntry) (f : NCFile)
    (hf : f ∈ y.files) (hnc : strEndsWith f.name ".nc" = true)
    (hfmax : ∀ f2 ∈ y.files, strEndsWith f2.name ".nc" = true → f2 ≠ f →
      pyLt f2.name f.name) :
    (yearFilesOrder y).head? = some f := by
  have hfs : f ∈ sortFilesDesc y.files :=
    (List.perm_insertionSort fileGe y.files).mem_iff.mpr hf
  have hmemflt : f ∈ yearFilesOrder y := List.mem_filter.mpr ⟨hfs, hnc⟩
  have hsorted : List.Pairwise fileGe (yearFilesOrder y) :=
    (List.sorted_insertionSort fileGe y.files).sublist
      (List.filter_sublist _)
  cases hflt : yearFilesOrder y with
  | nil => rw [hflt] at hmemflt; exact absurd hmemflt (List.not_mem_nil f)
  | cons h0 rest =>
    rw [hflt] at hmemflt hsorted
    by_cases hh : h0 = f
    · rw [hh]; rfl
    · exfalso
      have hh0mem : h0 ∈ yearFilesOrder y := by
        rw [hflt]; exact List.mem_cons_self _ _
      obtain ⟨hh0s, hh0nc⟩ := List.mem_filter.mp hh0mem
      have hh0files : h0 ∈ y.files :=
        (List.perm_insertionSort fileGe y.files).mem_iff.mp hh0s
      have hfrest : f ∈ rest := by
        rcases List.mem_cons.mp hmemflt with he | hr
        · exact absurd he.symm hh
        · exact hr
      have hge : fileGe h0 f := (List.pairwise_cons.mp hsorted).1 f hfrest
      have hlt := hfmax h0 hh0files hh0nc hh
      exact hlt.2 (String.ext (charListLe_antisymm _ _ hlt.1 hge))

/-- C8: within a station directory, year sub-directories are visited in
reverse lexicographic order of their names and, within each, files in
reverse lexicographic order, so the first file visited is the
lexicographically greatest `.nc` file of the lexicographically greatest
year directory (strictly greatest among the directory entries that are
directories; non-directory entries and non-`.nc` names, whatever their
names, contribute nothing). -/
theorem c8_reverse_lexicographic_first (years : List YearEntry)
    (y : YearEntry) (f : NCFile) (hnd : years.Nodup) (hy : y ∈ years)
    (hdir : y.isDir = true)
    (hymax : ∀ y2 ∈ years, y2.isDir = true → y2 ≠ y → pyLt y2.name y.name)
    (hf : f ∈ y.files) (hnc : strEndsWith f.name ".nc" = true)
    (hfmax : ∀ f2 ∈ y.files, strEndsWith f2.name ".nc" = true → f2 ≠ f →
      pyLt f2.name f.name) :
    (stationVisitOrder years).head? = some f := by
  have hperm := List.perm_insertionSort yearGe years
  have hnds : (sortYearsDesc years).Nodup := hperm.nodup_iff.mpr hnd
  have hsorted : List.Pairwise yearGe (sortYearsDesc years) :=
    List.sorted_insertionSort yearGe years
  have hys : y ∈ sortYearsDesc years := hperm.mem_iff.mpr hy
  obtain ⟨s, t, hsplit⟩ := List.append_of_mem hys
  have hynots : y ∉ s ++ t := by
    rw [hsplit] at hnds
    exact (List.nodup_cons.mp (List.nodup_middle.mp hnds)).1
  have hblocks : ∀ x ∈ s,
      (if x.isDir then yearFilesOrder x else []) = [] := by
    intro x hx
    by_cases hxd : x.isDir = true
    · exfalso
      have hxy : x ≠ y := by
        intro he
        exact hynots (List.mem_append_left t (he ▸ hx))
      have hxsorted : x ∈ sortYearsDesc years := by
        rw [hsplit]; exact List.mem_append_left _ hx
      have hxyears : x ∈ years := hperm.mem_iff.mp hxsorted
      have hlt := hymax x hxyears hxd hxy
      have hge : yearGe x y := by
        rw [hsplit] at hsorted
        exact (List.pairwise_append.mp hsorted).2.2 x hx y
          (List.mem_cons_self y t)
      exact hlt.2 (String.ext (charListLe_antisymm _ _ hlt.1 hge))
    · rw [if_neg hxd]
  unfold stationVisitOrder
  show ((sortYearsDesc years).flatMap
    (fun x => if x.isDir then yearFilesOrder x else [])).head? = some f
  rw [hsplit, List.flatMap_append, flatMapYears_eq_nil _ s hblocks,
    List.nil_append, List.flatMap_cons, if_pos hdir]
  have hhead := yearFilesOrder_head y f hf hnc hfmax
  cases hy2 : yearFilesOrder y with
  | nil => rw [hy2] at hhead; exact Option.noConfusion hhead
  | cons h0 rest =>
    rw [hy2] at hhead
    rw [List.cons_append]
    exact hhead

/-- A station directory listing: two year directories, a stray
non-directory entry whose name sorts above both, and, inside the
greatest year, a non-`.nc` file whose name sorts above the data files. -/
def yearsC8 : List YearEntry :=
  [⟨"2019", true, [⟨"x.nc", dsTimeAir⟩]⟩,
   ⟨"2020", true, [⟨"a.nc", dsOnlyAir⟩, ⟨"b.nc", dsTimeAir⟩,
     ⟨"readme.txt", dsOnlyAir⟩]⟩,
   ⟨"stuff.txt", false, []⟩]

theorem c8_reverse_lexicographic_first_witness :
    (stationVisitOrder yearsC8).head? = some ⟨"b.nc", dsTimeAir⟩ :=
  c8_reverse_lexicographic_first yearsC8
    ⟨"2020", true, [⟨"a.nc", dsOnlyAir⟩, ⟨"b.nc", dsTimeAir⟩,
      ⟨"readme.txt", dsOnlyAir⟩]⟩
    ⟨"b.nc", dsTimeAir⟩ (by decide)
    (List.mem_cons_of_mem _ (List.mem_cons_self _ _)) rfl (by decide)
    (List.mem_cons_of_mem _ (List.mem_cons_self _ _)) rfl (by decide)

/-! ### Station traversal on failure (C6) -/

/-- C6 (amended): a failure while processing one station is logged and
re-raised (line 104), which ends the traversal: the walk stops at the
failing station and no later station in the sequence is processed (the
exception is finally caught and logged at the top level). -/
theorem c6_station_failure_aborts (ow : Bool) (s : StationEntry)
    (rest : List StationEntry) (e : String) (hdir : s.isDir = true)
    (hsn : strStartsWith s.name "SN" = true)
    (hfail : check_netcdf ow s.years = .error e) :
    traverse_structure ow (s :: rest) = ([s.name], true) := by
  simp [traverse_structure, hdir, hsn, hfail]

/-- A file without the `featureType` global attribute: processing it
raises (lines 240-243). -/
def dsNoFT : NCDataset := ⟨1, [vTimeC9], []⟩

/-- A station whose single file fails reconciliation. -/
def stBad : StationEntry :=
  ⟨"SN001", true, [⟨"2020", true, [⟨"f.nc", dsNoFT⟩]⟩]⟩

/-- A perfectly processable station listed after the failing one. -/
def stGood : StationEntry := ⟨"SN002", true, []⟩

/-- C6 (counterexample to the claim as stated): the first station's
reconciliation raises, the second station would process fine on its own,
yet the traversal stops: `SN002` is never entered, so a failure in one
station does abort the processing of the remaining stations. -/
theorem c6_counterexample :
    traverse_structure false [stBad, stGood] = (["SN001"], true) ∧
    check_netcdf false stGood.years = .ok [] ∧
    "SN002" ∉ (traverse_structure false [stBad, stGood]).1 :=
  ⟨rfl, rfl, by decide⟩

theorem c6_station_failure_aborts_witness :
    traverse_structure false [stBad, stGood] = (["SN001"], true) :=
  c6_station_failure_aborts false stBad [stGood]
    "This file does not have featureType." rfl rfl rfl
